import Mathlib

/-!
Verification of the federated GAN round logic in
`gans/gan_training_tf_fns.py`.

The embedding follows the source file closely:

* A weight tensor is a flat vector of floating-point values (`Tensor`);
  its shape is its length.  A model's weight list is a `Weights`.
* Floating-point values are modelled by `FVal`: an exact rational, or one
  of the non-finite values NaN, +Inf, -Inf, with IEEE-style subtraction,
  negation and scaling.  (The claims under verification depend only on
  exact arithmetic and on finiteness detection, not on rounding.)
* A Keras model is a `Network`: an ordered list of variables together
  with a mask saying which variables are trainable.  Loading state into
  a model (`tf.nest.map_structure(lambda a, b: a.assign(b), ...)`) and
  `optimizer.apply_gradients` raise structural errors on nest-structure
  or shape disagreement; this is the `Except Err` layer.
* The loss functions (`gan_losses`, out of scope per the design) and the
  gradient computation of `optimizer.minimize` are abstract capabilities:
  a training step is parametrised by a function producing the new values
  of the target network's trainable variables (`minimize` with
  `var_list=` updates exactly the listed variables, in place).
  `tf.keras.optimizers.SGD(lr).apply_gradients` on a dense gradient `g`
  and variable `v` performs `v := v - lr * g`; this is `sgdRule`.
* `collections.OrderedDict` counters are association lists
  (`Counters`); Python's `d[k] += v` raises `KeyError` when `k` is
  absent, which is the `Option` in `countersAddTo`.
-/

/-- A floating-point value: an exact finite rational or a non-finite
IEEE value (NaN, +Inf, -Inf). -/
inductive FVal where
  | fin (q : ℚ)
  | nan
  | inf
  | ninf
deriving DecidableEq, Repr

/-- `tf.math.is_finite` on one element. -/
def FVal.isFinite : FVal → Bool
  | .fin _ => true
  | _ => false

/-- IEEE negation (`-1.0 * x` as used for the server gradient). -/
def FVal.neg : FVal → FVal
  | .fin q => .fin (-q)
  | .nan => .nan
  | .inf => .ninf
  | .ninf => .inf

/-- IEEE subtraction `a - b` (`tf.subtract`). -/
def FVal.sub : FVal → FVal → FVal
  | .fin a, .fin b => .fin (a - b)
  | .nan, _ => .nan
  | _, .nan => .nan
  | .inf, .inf => .nan
  | .inf, _ => .inf
  | .ninf, .ninf => .nan
  | .ninf, _ => .ninf
  | .fin _, .inf => .ninf
  | .fin _, .ninf => .inf

/-- Multiplication by a finite scalar `c` (the learning rate). -/
def FVal.scale (c : ℚ) : FVal → FVal
  | .fin a => .fin (c * a)
  | .nan => .nan
  | .inf => if 0 < c then .inf else if c < 0 then .ninf else .nan
  | .ninf => if 0 < c then .ninf else if c < 0 then .inf else .nan

/-- A weight tensor, flattened; its shape is its length. -/
abbrev Tensor := List FVal

/-- An ordered list of weight tensors (`tf.keras.Model.weights` values). -/
abbrev Weights := List Tensor

/-- A batch: a list of rows; `tf.shape(batch)[0]` is its length. -/
abbrev Batch := List Tensor

/-- Round-fatal error kinds: nest-structure / shape disagreement, or a
Python `KeyError` from `d[k] += v` on a missing counter key. -/
inductive Err where
  | structural
  | keyError
deriving DecidableEq, Repr

/-- Decidable equality for round results, so that concrete runs can be
checked by evaluation. -/
instance {ε α : Type} [DecidableEq ε] [DecidableEq α] :
    DecidableEq (Except ε α) := fun x y =>
  match x, y with
  | .ok a, .ok b =>
    if h : a = b then .isTrue (by rw [h])
    else .isFalse (by intro hc; cases hc; exact h rfl)
  | .error e, .error f =>
    if h : e = f then .isTrue (by rw [h])
    else .isFalse (by intro hc; cases hc; exact h rfl)
  | .ok _, .error _ => .isFalse (by intro hc; cases hc)
  | .error _, .ok _ => .isFalse (by intro hc; cases hc)

/-- Structure-and-shape agreement of two weight lists: same tensor count
and, position-wise, same tensor shape. -/
def shapesMatch (src cur : Weights) : Bool :=
  src.length == cur.length &&
    (src.zip cur).all (fun p => p.1.length == p.2.length)

/-- `tf.nest.map_structure(lambda a, b: a.assign(b), cur, src)`:
element-wise assignment of `src` into the model variables `cur`.
Raises a structural error on any count or shape disagreement; on
success the variables hold exactly `src`. -/
def assignWeights (cur src : Weights) : Except Err Weights :=
  if shapesMatch src cur then .ok src else .error Err.structural

/-- Element-wise `tf.subtract` over two weight lists of equal structure. -/
def subW (a b : Weights) : Weights :=
  (a.zip b).map (fun p => (p.1.zip p.2).map (fun q => FVal.sub q.1 q.2))

/-- `tf.nest.map_structure(lambda x, v: (-1.0 * x, v), delta, ...)`:
the gradients handed to the server optimizer. -/
def negW (w : Weights) : Weights :=
  w.map (fun t => t.map FVal.neg)

/-- One dense-gradient update of `tf.keras.optimizers.SGD(lr)`:
`v := v - lr * g`. -/
def sgdRule (lr : ℚ) (g v : FVal) : FVal :=
  v.sub (FVal.scale lr g)

/-- `optimizer.apply_gradients(grads_and_vars)` for a stateless
element-wise optimizer rule: fails structurally if a gradient's shape
does not match its variable's, otherwise applies the rule element-wise. -/
def applyGradients (rule : FVal → FVal → FVal) (grads vars : Weights) :
    Except Err Weights :=
  if shapesMatch grads vars then
    .ok ((grads.zip vars).map (fun p => (p.1.zip p.2).map (fun q => rule q.1 q.2)))
  else .error Err.structural

/-- Modelled from the spec: `tensor_utils.zero_all_if_any_non_finite`
(the `utils/tensor_utils` module is not part of the sources at hand).
Per the spec it scans every element of every tensor for NaN/Inf; if any
is found every tensor is replaced by a same-shaped zero tensor and the
flag is true, otherwise the structure is returned unchanged and the
flag is false. -/
def zero_all_if_any_non_finite (w : Weights) : Weights × Bool :=
  let bad := w.any (fun t => t.any (fun x => !x.isFinite))
  (if bad then w.map (fun t => t.map (fun _ => FVal.fin 0)) else w, bad)

/-- Ordered counters mapping (`collections.OrderedDict`), insertion
order preserved. -/
abbrev Counters := List (String × ℤ)

/-- Reading `d[key]` (first matching entry). -/
def countersGet : Counters → String → Option ℤ
  | [], _ => none
  | (k, v) :: rest, key => if k = key then some v else countersGet rest key

/-- Python `d[key] += inc` on an `OrderedDict`: updates the entry in
place when present, raises `KeyError` (`none`) when absent. -/
def countersAddTo : Counters → String → ℤ → Option Counters
  | [], _, _ => none
  | (k, v) :: rest, key, inc =>
    if k = key then some ((k, v + inc) :: rest)
    else (countersAddTo rest key inc).map (fun r => (k, v) :: r)

/-- `for k, v in client_output.counters.items(): server_state.counters[k] += v`. -/
def countersMerge (d : Counters) : Counters → Option Counters
  | [] => some d
  | (k, v) :: rest =>
    match countersAddTo d k v with
    | none => none
    | some d2 => countersMerge d2 rest

/-- A Keras model: its ordered variable values and which of the
variables are trainable (`trainable_variables` is the masked sublist). -/
structure Network where
  weights : Weights
  trainableMask : List Bool
deriving DecidableEq, Repr

/-- Container broadcast from the server to clients. -/
structure FromServer where
  generator_weights : Weights
  discriminator_weights : Weights
deriving DecidableEq, Repr

/-- Container sent from clients back to the server. -/
structure ClientOutput where
  discriminator_weights_delta : Weights
  update_weight : FVal
  counters : Counters
deriving DecidableEq, Repr

/-- Server state passed from round to round; `A` is the opaque
aggregation state owned by the external aggregation mechanism. -/
structure ServerState (A : Type) where
  generator_weights : Weights
  discriminator_weights : Weights
  counters : Counters
  aggregation_state : A
deriving DecidableEq, Repr

/-- Write new values into the trainable variables of a weight list
(`optimizer.minimize(..., var_list=model.trainable_variables)` updates
exactly the listed variables, in place; a `tf.Variable` keeps its
shape, so a value of the wrong shape cannot be stored). -/
def setTrainable : List Bool → Weights → List Tensor → Weights
  | _, [], _ => []
  | [], ws, _ => ws
  | true :: ms, w :: ws, [] => w :: setTrainable ms ws []
  | true :: ms, w :: ws, n :: ns =>
    (if n.length = w.length then n else w) :: setTrainable ms ws ns
  | false :: ms, w :: ws, ns => w :: setTrainable ms ws ns

/-- Abstract capability of one discriminator training step: from the
current generator weights, discriminator weights, generator-input batch
and real-data batch, the new values of the discriminator's trainable
variables (the bound Wasserstein loss and SGD optimizer are external
capabilities per the design). -/
abbrev DiscMin := Weights → Weights → Batch → Batch → List Tensor

/-- Abstract capability of one generator training step. -/
abbrev GenMin := Weights → Weights → Batch → List Tensor

/-- The client training loop over `tf.data.Dataset.zip((gen_inputs_ds,
real_data_ds))`: per pair, truncate both batches to the minimum of the
two leading dimensions, run one discriminator step, and accumulate the
step's return `tf.shape(real_data)[0]`.  Returns the final
discriminator weights, the accumulated example count, and the list of
(gen_inputs, real_data) pairs each step was run on. -/
def clientLoop (dm : DiscMin) (genW : Weights) (mask : List Bool) :
    List (Batch × Batch) → Weights → Weights × ℤ × List (Batch × Batch)
  | [], dw => (dw, 0, [])
  | (gi, rd) :: rest, dw =>
    let m := min rd.length gi.length
    let rd2 := rd.take m
    let gi2 := gi.take m
    let dw2 := setTrainable mask dw (dm genW dw gi2 rd2)
    let r := clientLoop dm genW mask rest dw2
    (r.1, (rd2.length : ℤ) + r.2.1, (gi2, rd2) :: r.2.2)

/-- `client_computation` of `gan_training_tf_fns.py`: loads the
broadcast weights into the two models, builds its own discriminator
training step (the `train_discriminator_fn` argument is bound but never
invoked; `discMin` is the abstract capability of the internally
constructed step), runs one local epoch over the zipped datasets,
computes the weight delta, zeroes it if any element is non-finite, and
packages the `ClientOutput`.  Also returns the two models' final
states (the source mutates them in place). -/
def client_computation (genDs realDs : List Batch) (fs : FromServer)
    (generator discriminator : Network)
    (train_discriminator_fn : DiscMin) (discMin : DiscMin) :
    Except Err (ClientOutput × Network × Network) :=
  match assignWeights generator.weights fs.generator_weights with
  | .error e => .error e
  | .ok genW =>
  match assignWeights discriminator.weights fs.discriminator_weights with
  | .error e => .error e
  | .ok discW0 =>
    let r := clientLoop discMin genW discriminator.trainableMask
      (genDs.zip realDs) discW0
    let z := zero_all_if_any_non_finite (subW r.1 fs.discriminator_weights)
    .ok (⟨z.1,
          if z.2 then FVal.fin 0 else FVal.fin (r.2.1 : ℚ),
          [("num_discriminator_train_examples", r.2.1)]⟩,
         ⟨genW, generator.trainableMask⟩,
         ⟨r.1, discriminator.trainableMask⟩)

/-- The server generator-training loop over `gen_inputs_ds`: one
generator step per batch, accumulating the step's return
`tf.shape(generator_inputs)[0]`.  The step updates only the
generator's trainable variables. -/
def genLoop (gm : GenMin) (mask : List Bool) (discW : Weights) :
    Weights → List Batch → Weights × ℤ
  | gw, [] => (gw, 0)
  | gw, b :: bs =>
    let gw2 := setTrainable mask gw (gm gw discW b)
    let r := genLoop gm mask discW gw2 bs
    (r.1, (b.length : ℤ) + r.2)

/-- `server_computation` of `gan_training_tf_fns.py`: takes a
semi-shallow copy of the input state (fresh counters dict), loads its
weights into the models, checks `tf.nest.assert_same_structure` of the
client delta against the discriminator weights (tensor count), applies
gradient `-1.0 * delta` through `server_disc_update_optimizer`
(element-wise rule `rule`), sums the client counters into the working
counters, installs the new aggregation state, trains the generator over
`gen_inputs_ds` (the `train_generator_fn` argument is bound but never
invoked; `genMin` is the abstract capability of the internally
constructed step), bumps the two bookkeeping counters, and snapshots
the model weights into the returned state. -/
def server_computation {A : Type} (st : ServerState A) (genDs : List Batch)
    (co : ClientOutput) (generator discriminator : Network)
    (rule : FVal → FVal → FVal) (train_generator_fn : GenMin)
    (genMin : GenMin) (newAgg : A) : Except Err (ServerState A) :=
  match assignWeights generator.weights st.generator_weights with
  | .error e => .error e
  | .ok genW =>
  match assignWeights discriminator.weights st.discriminator_weights with
  | .error e => .error e
  | .ok discW =>
  if co.discriminator_weights_delta.length = discW.length then
    match applyGradients rule (negW co.discriminator_weights_delta) discW with
    | .error e => .error e
    | .ok discW2 =>
    match countersMerge st.counters co.counters with
    | none => .error Err.keyError
    | some counters1 =>
      let p := genLoop genMin generator.trainableMask discW2 genW genDs
      match countersAddTo counters1 "num_generator_train_examples" p.2 with
      | none => .error Err.keyError
      | some counters2 =>
      match countersAddTo counters2 "num_rounds" 1 with
      | none => .error Err.keyError
      | some counters3 => .ok ⟨p.1, discW2, counters3, newAgg⟩
  else .error Err.structural

/-- A `ServerState` as a Python object: its counters field is a
reference (heap address) to an `OrderedDict`. -/
structure ServerStateObj (A : Type) where
  generator_weights : Weights
  discriminator_weights : Weights
  countersAddr : Nat
  aggregation_state : A
deriving DecidableEq, Repr

/-- A heap of counter dicts and server-state objects (addresses are
list indices; allocation appends). -/
structure Heap (A : Type) where
  dicts : List Counters
  objs : List (ServerStateObj A)
deriving DecidableEq, Repr

/-- `server_computation` at the Python object level, making the
aliasing explicit: `attr.evolve(server_state,
counters=collections.OrderedDict(server_state.counters))` allocates a
fresh state object holding a fresh copy of the counters dict, and every
subsequent mutation of the round targets only those fresh addresses.
Returns the new heap and the address of the returned state object. -/
def server_computation_heap {A : Type} (h : Heap A) (addr : Nat)
    (genDs : List Batch) (co : ClientOutput)
    (generator discriminator : Network) (rule : FVal → FVal → FVal)
    (train_generator_fn : GenMin) (genMin : GenMin) (newAgg : A) :
    Except Err (Heap A × Nat) :=
  match h.objs.get? addr with
  | none => .error Err.structural
  | some obj =>
  match h.dicts.get? obj.countersAddr with
  | none => .error Err.structural
  | some d =>
    let newDictAddr := h.dicts.length
    let newObjAddr := h.objs.length
    match server_computation
        (⟨obj.generator_weights, obj.discriminator_weights, d,
          obj.aggregation_state⟩ : ServerState A)
        genDs co generator discriminator rule train_generator_fn genMin
        newAgg with
    | .error e => .error e
    | .ok st2 =>
      let evolved : ServerStateObj A :=
        ⟨obj.generator_weights, obj.discriminator_weights, newDictAddr,
          obj.aggregation_state⟩
      let final : ServerStateObj A :=
        ⟨st2.generator_weights, st2.discriminator_weights, newDictAddr,
          st2.aggregation_state⟩
      .ok ((⟨(h.dicts ++ [d]).set newDictAddr st2.counters,
             (h.objs ++ [evolved]).set newObjAddr final⟩ : Heap A),
           newObjAddr)

/-! ## Basic lemmas about the embedded operations -/

theorem assignWeights_ok {cur src w : Weights}
    (h : assignWeights cur src = Except.ok w) :
    w = src ∧ shapesMatch src cur = true := by
  unfold assignWeights at h
  split at h
  next hs => exact ⟨(Except.ok.injEq _ _).mp h.symm, hs⟩
  next hs => exact absurd h (by simp)

theorem assignWeights_of_match {cur src : Weights}
    (hs : shapesMatch src cur = true) :
    assignWeights cur src = Except.ok src := by
  unfold assignWeights
  simp [hs]

theorem zipAll_negW : ∀ (w v : Weights),
    ((negW w).zip v).all (fun p => p.1.length == p.2.length) =
      (w.zip v).all (fun p => p.1.length == p.2.length) := by
  intro w
  induction w with
  | nil => intro v; simp [negW]
  | cons t ts ih =>
    intro v
    cases v with
    | nil => simp [negW]
    | cons u us =>
      have h := ih us
      simp only [negW, List.map_cons, List.zip_cons_cons, List.all_cons,
        List.length_map] at h ⊢
      rw [h]

theorem shapesMatch_negW (w v : Weights) :
    shapesMatch (negW w) v = shapesMatch w v := by
  unfold shapesMatch
  rw [zipAll_negW]
  simp [negW]

theorem genLoop_count (gm : GenMin) (mask : List Bool) (discW : Weights) :
    ∀ (bs : List Batch) (gw : Weights),
      (genLoop gm mask discW gw bs).2 =
        (bs.map (fun b => (b.length : ℤ))).sum := by
  intro bs
  induction bs with
  | nil => intro gw; simp [genLoop]
  | cons b rest ih => intro gw; simp [genLoop, ih]

theorem clientLoop_trace (dm : DiscMin) (genW : Weights) (mask : List Bool) :
    ∀ (ps : List (Batch × Batch)) (dw : Weights),
      (clientLoop dm genW mask ps dw).2.2 =
        ps.map (fun p =>
          (p.1.take (min p.2.length p.1.length),
           p.2.take (min p.2.length p.1.length))) := by
  intro ps
  induction ps with
  | nil => intro dw; simp [clientLoop]
  | cons p rest ih =>
    intro dw
    cases p with
    | mk gi rd => simp [clientLoop, ih]

theorem clientLoop_count (dm : DiscMin) (genW : Weights) (mask : List Bool) :
    ∀ (ps : List (Batch × Batch)) (dw : Weights),
      (clientLoop dm genW mask ps dw).2.1 =
        (ps.map (fun p => ((min p.2.length p.1.length : ℕ) : ℤ))).sum := by
  intro ps
  induction ps with
  | nil => intro dw; simp [clientLoop]
  | cons p rest ih =>
    intro dw
    cases p with
    | mk gi rd =>
      simp [clientLoop, ih, List.length_take]

theorem countersAddTo_isSome (d : Counters) (key : String) (inc : ℤ) :
    (countersAddTo d key inc).isSome = (countersGet d key).isSome := by
  induction d with
  | nil => simp [countersAddTo, countersGet]
  | cons p rest ih =>
    cases p with
    | mk k v =>
      by_cases hk : k = key <;>
        simp [countersAddTo, countersGet, hk, ih]

theorem countersGet_addTo_self {d d2 : Counters} {key : String} {inc x : ℤ}
    (h : countersAddTo d key inc = some d2)
    (hx : countersGet d key = some x) :
    countersGet d2 key = some (x + inc) := by
  induction d generalizing d2 with
  | nil => simp [countersAddTo] at h
  | cons p rest ih =>
    cases p with
    | mk k v =>
      by_cases hk : k = key
      · simp only [countersAddTo, hk, if_pos rfl] at h
        simp only [countersGet, hk, if_pos rfl] at hx
        cases h
        cases hx
        simp [countersGet]
      · simp only [countersAddTo, hk, if_neg hk] at h
        simp only [countersGet, hk, if_neg hk] at hx
        cases hr : countersAddTo rest key inc with
        | none => rw [hr] at h; simp at h
        | some r =>
          rw [hr] at h
          simp only [Option.map] at h
          cases h
          simp [countersGet, if_neg hk, ih hr hx]

theorem countersGet_addTo_ne {d d2 : Counters} {key key2 : String} {inc : ℤ}
    (h : countersAddTo d key inc = some d2) (hne : key2 ≠ key) :
    countersGet d2 key2 = countersGet d key2 := by
  induction d generalizing d2 with
  | nil => simp [countersAddTo] at h
  | cons p rest ih =>
    cases p with
    | mk k v =>
      by_cases hk : k = key
      · simp only [countersAddTo, if_pos hk] at h
        cases h
        have hk2 : ¬(k = key2) := by
          rw [hk]
          exact fun hc => hne hc.symm
        simp [countersGet, hk2]
      · simp only [countersAddTo, if_neg hk] at h
        cases hr : countersAddTo rest key inc with
        | none => rw [hr] at h; simp at h
        | some r =>
          rw [hr] at h
          simp only [Option.map] at h
          cases h
          by_cases hk2 : k = key2 <;> simp [countersGet, hk2, ih hr]

theorem countersMerge_get_notin {c : Counters} :
    ∀ {d d2 : Counters} {key : String},
      countersMerge d c = some d2 → key ∉ c.map Prod.fst →
      countersGet d2 key = countersGet d key := by
  induction c with
  | nil =>
    intro d d2 key h _
    simp only [countersMerge] at h
    cases h
    rfl
  | cons p rest ih =>
    intro d d2 key h hnotin
    cases p with
    | mk k v =>
      simp only [List.map_cons, List.mem_cons] at hnotin
      push_neg at hnotin
      simp only [countersMerge] at h
      cases ha : countersAddTo d k v with
      | none => rw [ha] at h; simp at h
      | some d1 =>
        rw [ha] at h
        rw [ih h hnotin.2, countersGet_addTo_ne ha hnotin.1]

theorem countersMerge_present {c : Counters} :
    ∀ {d d2 : Counters} {k : String} {v x : ℤ},
      (c.map Prod.fst).Nodup → (k, v) ∈ c →
      countersGet d k = some x → countersMerge d c = some d2 →
      countersGet d2 k = some (x + v) := by
  induction c with
  | nil => intro d d2 k v x _ hmem; simp at hmem
  | cons p rest ih =>
    intro d d2 k v x hnodup hmem hx h
    cases p with
    | mk k0 v0 =>
      simp only [List.map_cons, List.nodup_cons] at hnodup
      simp only [countersMerge] at h
      cases ha : countersAddTo d k0 v0 with
      | none => rw [ha] at h; simp at h
      | some d1 =>
        rw [ha] at h
        rcases List.mem_cons.mp hmem with heq | hmem2
        · cases heq
          have hget : countersGet d2 k = countersGet d1 k := by
            have hkn : k ∉ rest.map Prod.fst := hnodup.1
            exact countersMerge_get_notin h hkn
          rw [hget, countersGet_addTo_self ha hx]
        · have hkne : k ≠ k0 := by
            intro hc
            exact hnodup.1 (hc ▸ (List.mem_map.mpr ⟨(k, v), hmem2, rfl⟩))
          have hx1 : countersGet d1 k = some x := by
            rw [countersGet_addTo_ne ha hkne, hx]
          exact ih hnodup.2 hmem2 hx1 h

theorem countersMerge_absent {c : Counters} :
    ∀ {d : Counters} {k : String},
      k ∈ c.map Prod.fst → countersGet d k = none →
      countersMerge d c = none := by
  induction c with
  | nil => intro d k hmem; simp at hmem
  | cons p rest ih =>
    intro d k hmem hnone
    cases p with
    | mk k0 v0 =>
      simp only [countersMerge]
      cases ha : countersAddTo d k0 v0 with
      | none => rfl
      | some d1 =>
        have hmem' : k ∈ k0 :: rest.map Prod.fst := by
          simpa using hmem
        rcases List.mem_cons.mp hmem' with heq | hmem2
        · exfalso
          have h0 : countersGet d k0 = none := by rw [← heq]; exact hnone
          have hsome := countersAddTo_isSome d k0 v0
          rw [ha, h0] at hsome
          simp at hsome
        · have hkne : k ≠ k0 := by
            intro hc
            have h0 : countersGet d k0 = none := by rw [← hc]; exact hnone
            have hsome := countersAddTo_isSome d k0 v0
            rw [ha, h0] at hsome
            simp at hsome
          exact ih hmem2 (by rw [countersGet_addTo_ne ha hkne, hnone])

theorem server_computation_ok_inv {A : Type} {st : ServerState A}
    {genDs : List Batch} {co : ClientOutput}
    {generator discriminator : Network} {rule : FVal → FVal → FVal}
    {tgf gm : GenMin} {newAgg : A} {st' : ServerState A}
    (h : server_computation st genDs co generator discriminator rule tgf gm
      newAgg = Except.ok st') :
    shapesMatch st.generator_weights generator.weights = true ∧
    shapesMatch st.discriminator_weights discriminator.weights = true ∧
    co.discriminator_weights_delta.length = st.discriminator_weights.length ∧
    ∃ discW2 counters1 counters2 counters3,
      applyGradients rule (negW co.discriminator_weights_delta)
        st.discriminator_weights = Except.ok discW2 ∧
      countersMerge st.counters co.counters = some counters1 ∧
      countersAddTo counters1 "num_generator_train_examples"
        (genLoop gm generator.trainableMask discW2 st.generator_weights
          genDs).2 = some counters2 ∧
      countersAddTo counters2 "num_rounds" 1 = some counters3 ∧
      st' = ⟨(genLoop gm generator.trainableMask discW2 st.generator_weights
                genDs).1,
             discW2, counters3, newAgg⟩ := by
  simp only [server_computation] at h
  split at h
  · simp at h
  next genW heq1 =>
    split at h
    · simp at h
    next discW heq2 =>
      obtain ⟨hw1, hs1⟩ := assignWeights_ok heq1
      obtain ⟨hw2, hs2⟩ := assignWeights_ok heq2
      subst hw1
      subst hw2
      split at h
      next hlen =>
        split at h
        · simp at h
        next discW2 heq3 =>
          split at h
          · simp at h
          next counters1 heq4 =>
            split at h
            · simp at h
            next counters2 heq5 =>
              split at h
              · simp at h
              next counters3 heq6 =>
                refine ⟨hs1, hs2, hlen, discW2, counters1, counters2,
                  counters3, heq3, heq4, heq5, heq6, ?_⟩
                cases h
                rfl
      next hlen => simp at h

theorem client_computation_ok_inv {genDs realDs : List Batch}
    {fs : FromServer} {generator discriminator : Network}
    {tdf dm : DiscMin} {o : ClientOutput} {gfin dfin : Network}
    (h : client_computation genDs realDs fs generator discriminator tdf dm =
      Except.ok (o, gfin, dfin)) :
    shapesMatch fs.generator_weights generator.weights = true ∧
    shapesMatch fs.discriminator_weights discriminator.weights = true ∧
    o = ⟨(zero_all_if_any_non_finite
            (subW (clientLoop dm fs.generator_weights
                discriminator.trainableMask (genDs.zip realDs)
                fs.discriminator_weights).1 fs.discriminator_weights)).1,
         (if (zero_all_if_any_non_finite
                (subW (clientLoop dm fs.generator_weights
                    discriminator.trainableMask (genDs.zip realDs)
                    fs.discriminator_weights).1 fs.discriminator_weights)).2
          then FVal.fin 0
          else FVal.fin ((clientLoop dm fs.generator_weights
              discriminator.trainableMask (genDs.zip realDs)
              fs.discriminator_weights).2.1 : ℚ)),
         [("num_discriminator_train_examples",
           (clientLoop dm fs.generator_weights discriminator.trainableMask
             (genDs.zip realDs) fs.discriminator_weights).2.1)]⟩ ∧
    gfin = ⟨fs.generator_weights, generator.trainableMask⟩ ∧
    dfin = ⟨(clientLoop dm fs.generator_weights discriminator.trainableMask
              (genDs.zip realDs) fs.discriminator_weights).1,
            discriminator.trainableMask⟩ := by
  simp only [client_computation] at h
  split at h
  · simp at h
  next genW heq1 =>
    split at h
    · simp at h
    next discW0 heq2 =>
      obtain ⟨hw1, hs1⟩ := assignWeights_ok heq1
      obtain ⟨hw2, hs2⟩ := assignWeights_ok heq2
      subst hw1
      subst hw2
      refine ⟨hs1, hs2, ?_⟩
      cases h
      exact ⟨rfl, rfl, rfl⟩

theorem client_computation_total {genDs realDs : List Batch}
    {fs : FromServer} {generator discriminator : Network}
    (tdf dm : DiscMin)
    (hg : shapesMatch fs.generator_weights generator.weights = true)
    (hd : shapesMatch fs.discriminator_weights discriminator.weights = true) :
    client_computation genDs realDs fs generator discriminator tdf dm =
      Except.ok
        (⟨(zero_all_if_any_non_finite
             (subW (clientLoop dm fs.generator_weights
                 discriminator.trainableMask (genDs.zip realDs)
                 fs.discriminator_weights).1 fs.discriminator_weights)).1,
          (if (zero_all_if_any_non_finite
                 (subW (clientLoop dm fs.generator_weights
                     discriminator.trainableMask (genDs.zip realDs)
                     fs.discriminator_weights).1 fs.discriminator_weights)).2
           then FVal.fin 0
           else FVal.fin ((clientLoop dm fs.generator_weights
               discriminator.trainableMask (genDs.zip realDs)
               fs.discriminator_weights).2.1 : ℚ)),
          [("num_discriminator_train_examples",
            (clientLoop dm fs.generator_weights discriminator.trainableMask
              (genDs.zip realDs) fs.discriminator_weights).2.1)]⟩,
         ⟨fs.generator_weights, generator.trainableMask⟩,
         ⟨(clientLoop dm fs.generator_weights discriminator.trainableMask
             (genDs.zip realDs) fs.discriminator_weights).1,
           discriminator.trainableMask⟩) := by
  unfold client_computation
  rw [assignWeights_of_match hg, assignWeights_of_match hd]

theorem zip_self_map {α β : Type} (l : List α) (f : α → α → β) :
    ((l.zip l).map fun p => f p.1 p.2) = l.map fun x => f x x := by
  induction l with
  | nil => rfl
  | cons a rest ih => simp [ih]

theorem sub_self_zero_or_nonfinite (a : FVal) :
    FVal.sub a a = FVal.fin 0 ∨ (FVal.sub a a).isFinite = false := by
  cases a with
  | fin q => left; simp [FVal.sub]
  | nan => right; rfl
  | inf => right; rfl
  | ninf => right; rfl

theorem subW_self (w : Weights) :
    subW w w = w.map fun t => t.map fun x => FVal.sub x x := by
  induction w with
  | nil => rfl
  | cons t ts ih =>
    unfold subW
    simp only [List.zip_cons_cons, List.map_cons]
    congr 1
    exact zip_self_map t FVal.sub

theorem zero_all_sub_self (w : Weights) :
    (zero_all_if_any_non_finite (subW w w)).1 =
      w.map fun t => t.map fun _ => FVal.fin 0 := by
  unfold zero_all_if_any_non_finite
  have hsub : subW w w = w.map fun t => t.map fun x => FVal.sub x x :=
    subW_self w
  by_cases hbad :
      (subW w w).any (fun t => t.any fun x => !x.isFinite) = true
  · simp only [hbad, if_true]
    rw [hsub]
    simp [List.map_map, Function.comp]
  · rw [Bool.not_eq_true] at hbad
    simp only [hbad, Bool.false_eq_true, if_false]
    rw [hsub] at hbad ⊢
    simp only [List.any_eq_false, Bool.not_eq_true] at hbad
    refine List.map_congr_left fun t ht => ?_
    refine List.map_congr_left fun x hx => ?_
    have hfin := hbad _ (List.mem_map.mpr ⟨t, ht, rfl⟩) _
      (List.mem_map.mpr ⟨x, hx, rfl⟩)
    rcases sub_self_zero_or_nonfinite x with h0 | hnf
    · exact h0
    · exfalso
      rw [hnf] at hfin
      simp at hfin

theorem shapesMatch_iff {a b : Weights} :
    shapesMatch a b = true ↔
      a.length = b.length ∧ ∀ p ∈ a.zip b, p.1.length = p.2.length := by
  unfold shapesMatch
  simp

theorem sub_fin_zero (v : FVal) : FVal.sub v (FVal.fin 0) = v := by
  cases v <;> simp [FVal.sub]

theorem sgdRule_neg_zero (lr : ℚ) (v : FVal) :
    sgdRule lr (FVal.neg (FVal.fin 0)) v = v := by
  unfold sgdRule
  have h1 : FVal.scale lr (FVal.neg (FVal.fin 0)) = FVal.fin 0 := by
    simp [FVal.neg, FVal.scale]
  rw [h1, sub_fin_zero]

theorem map_sgd_zero_tensor (lr : ℚ) : ∀ (g t : Tensor),
    g.length = t.length → (∀ x ∈ g, x = FVal.fin 0) →
    ((g.map FVal.neg).zip t).map (fun q => sgdRule lr q.1 q.2) = t := by
  intro g
  induction g with
  | nil =>
    intro t hlen _
    cases t with
    | nil => rfl
    | cons b bs => simp at hlen
  | cons a g ih =>
    intro t hlen hz
    cases t with
    | nil => simp at hlen
    | cons b bs =>
      simp only [List.map_cons, List.zip_cons_cons]
      rw [hz a (by simp), sgdRule_neg_zero]
      rw [ih bs (by simpa using hlen) (fun x hx => hz x (by simp [hx]))]

theorem map_sgd_zero_weights (lr : ℚ) : ∀ (delta vars : Weights),
    (negW delta).length = vars.length →
    (∀ p ∈ (negW delta).zip vars, p.1.length = p.2.length) →
    (∀ t ∈ delta, ∀ x ∈ t, x = FVal.fin 0) →
    ((negW delta).zip vars).map
      (fun p => (p.1.zip p.2).map fun q => sgdRule lr q.1 q.2) = vars := by
  intro delta
  induction delta with
  | nil =>
    intro vars hlen _ _
    cases vars with
    | nil => rfl
    | cons u us => simp [negW] at hlen
  | cons t ts ih =>
    intro vars hlen hall hz
    cases vars with
    | nil => simp [negW] at hlen
    | cons u us =>
      simp only [negW, List.map_cons, List.zip_cons_cons, List.map_cons,
        List.length_cons, List.length_map] at hlen hall ⊢
      have hhead : (t.map FVal.neg).length = u.length := by
        have := hall (t.map FVal.neg, u) (by simp)
        simpa using this
      rw [map_sgd_zero_tensor lr t u (by simpa using hhead)
        (fun x hx => hz t (by simp) x hx)]
      have htail := ih us (by simpa [negW] using hlen)
        (fun p hp => hall p (List.mem_cons.mpr (Or.inr (by
          simpa [negW] using hp))))
        (fun t2 ht2 x hx => hz t2 (by simp [ht2]) x hx)
      simp only [negW] at htail
      rw [htail]

theorem applyGradients_zero_delta {lr : ℚ} {delta vars out : Weights}
    (hz : ∀ t ∈ delta, ∀ x ∈ t, x = FVal.fin 0)
    (h : applyGradients (sgdRule lr) (negW delta) vars = Except.ok out) :
    out = vars := by
  unfold applyGradients at h
  split at h
  next hs =>
    obtain ⟨hlen, hall⟩ := shapesMatch_iff.mp hs
    cases h
    exact map_sgd_zero_weights lr delta vars hlen hall hz
  next => simp at h

theorem set_append_length {α : Type} (l : List α) (x y : α) :
    (l ++ [x]).set l.length y = l ++ [y] := by
  induction l with
  | nil => rfl
  | cons a rest ih => simp [List.set, ih]

/-! ## The claims -/

/-- C9: the results of `client_computation` and `server_computation` are
independent of their `train_discriminator_fn` / `train_generator_fn`
arguments: each function constructs its own training step internally
(`tmp_train_discriminator_fn` / `tmp_train_generator_fn`) and never
invokes the argument it was passed, so for any two values of that
argument and otherwise identical inputs the outputs are equal. -/
theorem c9_train_fn_args_unused {A : Type} (genDs realDs : List Batch)
    (fs : FromServer) (generator discriminator : Network) (dm : DiscMin)
    (f1 f2 : DiscMin) (st : ServerState A) (co : ClientOutput)
    (rule : FVal → FVal → FVal) (gm g1 g2 : GenMin) (newAgg : A) :
    client_computation genDs realDs fs generator discriminator f1 dm =
      client_computation genDs realDs fs generator discriminator f2 dm ∧
    server_computation st genDs co generator discriminator rule g1 gm
        newAgg =
      server_computation st genDs co generator discriminator rule g2 gm
        newAgg :=
  ⟨rfl, rfl⟩

/-- C10: `client_computation` never trains the generator: whenever it
returns, the generator's variables hold exactly the loaded
`from_server.generator_weights` (the discriminator step updates only
`discriminator.trainable_variables`), with the trainable set unchanged. -/
theorem c10_generator_untrained (genDs realDs : List Batch)
    (fs : FromServer) (generator discriminator : Network)
    (tdf dm : DiscMin) (o : ClientOutput) (gfin dfin : Network)
    (h : client_computation genDs realDs fs generator discriminator tdf dm =
      Except.ok (o, gfin, dfin)) :
    gfin.weights = fs.generator_weights ∧
    gfin.trainableMask = generator.trainableMask := by
  obtain ⟨_, _, _, hg, _⟩ := client_computation_ok_inv h
  rw [hg]
  exact ⟨rfl, rfl⟩

/-- Witness for C10 at a concrete input: one training step that rewrites
the discriminator's variable to 7 leaves the generator holding the
broadcast value 3. -/
theorem c10_witness :
    client_computation [[[FVal.fin 1]]] [[[FVal.fin 2]]]
        ⟨[[FVal.fin 3]], [[FVal.fin 4]]⟩ ⟨[[FVal.fin 0]], [true]⟩
        ⟨[[FVal.fin 0]], [true]⟩ (fun _ _ _ _ => [[FVal.fin 7]])
        (fun _ _ _ _ => [[FVal.fin 7]]) =
      Except.ok
        (⟨[[FVal.fin 3]], FVal.fin 1,
          [("num_discriminator_train_examples", 1)]⟩,
         ⟨[[FVal.fin 3]], [true]⟩, ⟨[[FVal.fin 7]], [true]⟩) ∧
    (⟨[[FVal.fin 3]], [true]⟩ : Network).weights = [[FVal.fin 3]] :=
  ⟨by norm_num [client_computation, assignWeights, shapesMatch, clientLoop,
     setTrainable, subW, zero_all_if_any_non_finite, FVal.sub, FVal.isFinite],
   (c10_generator_untrained [[[FVal.fin 1]]] [[[FVal.fin 2]]]
     ⟨[[FVal.fin 3]], [[FVal.fin 4]]⟩ ⟨[[FVal.fin 0]], [true]⟩
     ⟨[[FVal.fin 0]], [true]⟩ (fun _ _ _ _ => [[FVal.fin 7]])
     (fun _ _ _ _ => [[FVal.fin 7]])
     ⟨[[FVal.fin 3]], FVal.fin 1,
       [("num_discriminator_train_examples", 1)]⟩
     ⟨[[FVal.fin 3]], [true]⟩ ⟨[[FVal.fin 7]], [true]⟩
     (by norm_num [client_computation, assignWeights, shapesMatch, clientLoop,
       setTrainable, subW, zero_all_if_any_non_finite, FVal.sub,
       FVal.isFinite])).1⟩

/-- C2: the client training loop runs exactly `min(N, M)` steps over the
zip of the two datasets; each step receives both batches truncated to
the minimum of their two leading-dimension sizes; the accumulated
example count is the sum of those per-step minimum batch sizes, and it
is what `client_computation` reports under
`num_discriminator_train_examples`. -/
theorem c2_min_steps (dm : DiscMin) (fs : FromServer)
    (generator discriminator : Network) (tdf : DiscMin)
    (genDs realDs : List Batch) :
    ((clientLoop dm fs.generator_weights discriminator.trainableMask
        (genDs.zip realDs) fs.discriminator_weights).2.2).length =
      min genDs.length realDs.length ∧
    (clientLoop dm fs.generator_weights discriminator.trainableMask
        (genDs.zip realDs) fs.discriminator_weights).2.2 =
      (genDs.zip realDs).map (fun p =>
        (p.1.take (min p.2.length p.1.length),
         p.2.take (min p.2.length p.1.length))) ∧
    (clientLoop dm fs.generator_weights discriminator.trainableMask
        (genDs.zip realDs) fs.discriminator_weights).2.1 =
      ((genDs.zip realDs).map
        (fun p => ((min p.2.length p.1.length : ℕ) : ℤ))).sum ∧
    ∀ o gfin dfin,
      client_computation genDs realDs fs generator discriminator tdf dm =
        Except.ok (o, gfin, dfin) →
      o.counters = [("num_discriminator_train_examples",
        (clientLoop dm fs.generator_weights discriminator.trainableMask
          (genDs.zip realDs) fs.discriminator_weights).2.1)] := by
  refine ⟨?_,
    clientLoop_trace dm fs.generator_weights discriminator.trainableMask
      (genDs.zip realDs) fs.discriminator_weights,
    clientLoop_count dm fs.generator_weights discriminator.trainableMask
      (genDs.zip realDs) fs.discriminator_weights, ?_⟩
  · rw [clientLoop_trace]
    simp [List.length_zip]
  · intro o gfin dfin h
    obtain ⟨_, _, ho, _, _⟩ := client_computation_ok_inv h
    rw [ho]

/-- C1 (amended): whenever `server_computation` returns a state, the
keys `num_rounds` and `num_generator_train_examples` are present in the
input counters, and the client counters do not themselves contain
either of those two keys, the returned counters hold the input
`num_rounds` plus exactly 1 and the input
`num_generator_train_examples` plus the sum of the leading-dimension
sizes of the batches iterated from `gen_inputs_ds`. -/
theorem c1_counters_increment {A : Type} (st : ServerState A)
    (genDs : List Batch) (co : ClientOutput)
    (generator discriminator : Network) (rule : FVal → FVal → FVal)
    (tgf gm : GenMin) (newAgg : A) (st' : ServerState A) (r g : ℤ)
    (hok : server_computation st genDs co generator discriminator rule tgf
      gm newAgg = Except.ok st')
    (hr : countersGet st.counters "num_rounds" = some r)
    (hg : countersGet st.counters "num_generator_train_examples" = some g)
    (hnr : "num_rounds" ∉ co.counters.map Prod.fst)
    (hng : "num_generator_train_examples" ∉ co.counters.map Prod.fst) :
    countersGet st'.counters "num_rounds" = some (r + 1) ∧
    countersGet st'.counters "num_generator_train_examples" =
      some (g + (genDs.map (fun b => (b.length : ℤ))).sum) := by
  obtain ⟨hs1, hs2, hlen, discW2, d1, d2, d3, happ, hmerge, hadd1, hadd2,
    hst⟩ := server_computation_ok_inv hok
  subst hst
  have hr1 : countersGet d1 "num_rounds" = some r := by
    rw [countersMerge_get_notin hmerge hnr, hr]
  have hg1 : countersGet d1 "num_generator_train_examples" = some g := by
    rw [countersMerge_get_notin hmerge hng, hg]
  have hg2 : countersGet d2 "num_generator_train_examples" =
      some (g + (genLoop gm generator.trainableMask discW2
        st.generator_weights genDs).2) := countersGet_addTo_self hadd1 hg1
  have hr2 : countersGet d2 "num_rounds" = some r := by
    rw [countersGet_addTo_ne hadd1 (by decide), hr1]
  have hr3 : countersGet d3 "num_rounds" = some (r + 1) :=
    countersGet_addTo_self hadd2 hr2
  have hg3 : countersGet d3 "num_generator_train_examples" =
      some (g + (genLoop gm generator.trainableMask discW2
        st.generator_weights genDs).2) := by
    rw [countersGet_addTo_ne hadd2 (by decide), hg2]
  refine ⟨hr3, ?_⟩
  rw [hg3, genLoop_count]

/-- C1 counterexample: the claim quantifies over every `ClientOutput`,
but if the client counters themselves contain a `num_rounds` entry (5
here) it is merged in before the final increment, so `num_rounds` goes
from 0 to 6, not to 0 + 1. -/
theorem c1_cex :
    server_computation (A := Unit)
      ⟨[[FVal.fin 1]], [[FVal.fin 2]],
        [("num_rounds", 0), ("num_generator_train_examples", 0)], ()⟩
      [] ⟨[[FVal.fin 0]], FVal.fin 0, [("num_rounds", 5)]⟩
      ⟨[[FVal.fin 0]], [true]⟩ ⟨[[FVal.fin 0]], [true]⟩ (sgdRule 1)
      (fun _ _ _ => []) (fun _ _ _ => []) () =
      Except.ok
        ⟨[[FVal.fin 1]], [[FVal.fin 2]],
          [("num_rounds", 6), ("num_generator_train_examples", 0)], ()⟩ ∧
    countersGet [("num_rounds", (0 : ℤ)),
      ("num_generator_train_examples", 0)] "num_rounds" = some 0 ∧
    (6 : ℤ) ≠ 0 + 1 := by
  refine ⟨?_, by norm_num [countersGet], by norm_num⟩
  norm_num [server_computation, assignWeights, shapesMatch, applyGradients,
    negW, sgdRule, FVal.neg, FVal.scale, FVal.sub, countersMerge,
    countersAddTo, genLoop]

/-- Witness for (amended) C1 at a concrete input: `num_rounds` 2 → 3,
`num_generator_train_examples` 10 → 12 after one two-row batch. -/
theorem c1_witness :
    server_computation (A := Unit)
      ⟨[[FVal.fin 1]], [[FVal.fin 0]],
        [("num_discriminator_train_examples", 3),
         ("num_generator_train_examples", 10), ("num_rounds", 2)], ()⟩
      [[[FVal.fin 5], [FVal.fin 6]]]
      ⟨[[FVal.fin 2]], FVal.fin 3,
        [("num_discriminator_train_examples", 4)]⟩
      ⟨[[FVal.fin 0]], [true]⟩ ⟨[[FVal.fin 0]], [true]⟩ (sgdRule 1)
      (fun _ _ _ => [[FVal.fin 9]]) (fun _ _ _ => [[FVal.fin 9]]) () =
      Except.ok
        ⟨[[FVal.fin 9]], [[FVal.fin 2]],
          [("num_discriminator_train_examples", 7),
           ("num_generator_train_examples", 12), ("num_rounds", 3)], ()⟩ ∧
    countersGet [("num_discriminator_train_examples", (3 : ℤ)),
      ("num_generator_train_examples", 10), ("num_rounds", 2)]
      "num_rounds" = some 2 ∧
    countersGet [("num_discriminator_train_examples", (3 : ℤ)),
      ("num_generator_train_examples", 10), ("num_rounds", 2)]
      "num_generator_train_examples" = some 10 ∧
    "num_rounds" ∉
      ([("num_discriminator_train_examples", (4 : ℤ))].map Prod.fst) ∧
    "num_generator_train_examples" ∉
      ([("num_discriminator_train_examples", (4 : ℤ))].map Prod.fst) ∧
    (countersGet (⟨[[FVal.fin 9]], [[FVal.fin 2]],
        [("num_discriminator_train_examples", 7),
         ("num_generator_train_examples", 12), ("num_rounds", 3)],
        ()⟩ : ServerState Unit).counters "num_rounds" = some (2 + 1) ∧
     countersGet (⟨[[FVal.fin 9]], [[FVal.fin 2]],
        [("num_discriminator_train_examples", 7),
         ("num_generator_train_examples", 12), ("num_rounds", 3)],
        ()⟩ : ServerState Unit).counters "num_generator_train_examples" =
       some (10 + ([[[FVal.fin 5], [FVal.fin 6]]].map
         (fun b => (b.length : ℤ))).sum)) :=
  ⟨by simp [server_computation, assignWeights, shapesMatch,
     applyGradients, negW, sgdRule, FVal.neg, FVal.scale, FVal.sub,
     countersMerge, countersAddTo, genLoop, setTrainable] <;> norm_num,
   by decide, by decide, by decide, by decide,
   c1_counters_increment
     ⟨[[FVal.fin 1]], [[FVal.fin 0]],
       [("num_discriminator_train_examples", 3),
        ("num_generator_train_examples", 10), ("num_rounds", 2)], ()⟩
     [[[FVal.fin 5], [FVal.fin 6]]]
     ⟨[[FVal.fin 2]], FVal.fin 3,
       [("num_discriminator_train_examples", 4)]⟩
     ⟨[[FVal.fin 0]], [true]⟩ ⟨[[FVal.fin 0]], [true]⟩ (sgdRule 1)
     (fun _ _ _ => [[FVal.fin 9]]) (fun _ _ _ => [[FVal.fin 9]]) ()
     ⟨[[FVal.fin 9]], [[FVal.fin 2]],
       [("num_discriminator_train_examples", 7),
        ("num_generator_train_examples", 12), ("num_rounds", 3)], ()⟩
     2 10
     (by simp [server_computation, assignWeights, shapesMatch,
       applyGradients, negW, sgdRule, FVal.neg, FVal.scale, FVal.sub,
       countersMerge, countersAddTo, genLoop, setTrainable] <;> norm_num)
     (by decide) (by decide) (by decide) (by decide)⟩

/-- C4 (amended): when `server_disc_update_optimizer` is plain SGD with
learning rate `lr`, the discriminator-update step applies gradient
`-1.0 * delta`, so the returned discriminator weights are exactly the
result of that one optimizer step on the loaded weights (the generator
training that follows does not touch them); element-wise the step maps
a finite weight `v` and finite delta `d` to `v + lr * d`, which is
`v + d` exactly when `lr = 1`; and with an all-zero delta the
discriminator weights are numerically unchanged for every `lr`. -/
theorem c4_sgd_step {A : Type} (lr : ℚ) (st : ServerState A)
    (genDs : List Batch) (co : ClientOutput)
    (generator discriminator : Network) (tgf gm : GenMin) (newAgg : A)
    (st' : ServerState A)
    (hok : server_computation st genDs co generator discriminator
      (sgdRule lr) tgf gm newAgg = Except.ok st') :
    applyGradients (sgdRule lr) (negW co.discriminator_weights_delta)
      st.discriminator_weights = Except.ok st'.discriminator_weights ∧
    (∀ v d : ℚ, sgdRule lr (FVal.neg (FVal.fin d)) (FVal.fin v) =
      FVal.fin (v + lr * d)) ∧
    (lr = 1 → ∀ v d : ℚ,
      sgdRule lr (FVal.neg (FVal.fin d)) (FVal.fin v) =
        FVal.fin (v + d)) ∧
    ((∀ t ∈ co.discriminator_weights_delta, ∀ x ∈ t, x = FVal.fin 0) →
      st'.discriminator_weights = st.discriminator_weights) := by
  obtain ⟨hs1, hs2, hlen, discW2, d1, d2, d3, happ, hmerge, hadd1, hadd2,
    hst⟩ := server_computation_ok_inv hok
  subst hst
  refine ⟨happ, ?_, ?_, ?_⟩
  · intro v d
    simp only [sgdRule, FVal.neg, FVal.scale, FVal.sub]
    rw [FVal.fin.injEq]
    ring
  · intro hlr v d
    subst hlr
    simp only [sgdRule, FVal.neg, FVal.scale, FVal.sub]
    rw [FVal.fin.injEq]
    ring
  · intro hz
    exact applyGradients_zero_delta hz happ

/-- C4 counterexample: with plain SGD at learning rate 2, old weight 0
and delta 1, the discriminator-update step produces 0 + 2 * 1 = 2, not
old + delta = 1: the claimed `old + delta` holds only for lr = 1. -/
theorem c4_cex :
    server_computation (A := Unit)
      ⟨[[FVal.fin 1]], [[FVal.fin 0]],
        [("num_rounds", 0), ("num_generator_train_examples", 0)], ()⟩
      [] ⟨[[FVal.fin 1]], FVal.fin 1, []⟩
      ⟨[[FVal.fin 0]], [true]⟩ ⟨[[FVal.fin 0]], [true]⟩ (sgdRule 2)
      (fun _ _ _ => []) (fun _ _ _ => []) () =
      Except.ok
        ⟨[[FVal.fin 1]], [[FVal.fin 2]],
          [("num_rounds", 1), ("num_generator_train_examples", 0)], ()⟩ ∧
    FVal.fin 2 ≠ FVal.fin ((0 : ℚ) + 1) := by
  constructor
  · simp [server_computation, assignWeights, shapesMatch, applyGradients,
      negW, sgdRule, FVal.neg, FVal.scale, FVal.sub, countersMerge,
      countersAddTo, genLoop] <;> norm_num
  · intro hc
    rw [FVal.fin.injEq] at hc
    norm_num at hc

/-- Witness for (amended) C4 at a concrete input: with lr = 1, old
weight 2 and an all-zero delta, the returned discriminator weights
equal the input state's discriminator weights. -/
theorem c4_witness :
    server_computation (A := Unit)
      ⟨[[FVal.fin 1]], [[FVal.fin 2]],
        [("num_rounds", 0), ("num_generator_train_examples", 0)], ()⟩
      [] ⟨[[FVal.fin 0]], FVal.fin 0, []⟩
      ⟨[[FVal.fin 0]], [true]⟩ ⟨[[FVal.fin 0]], [true]⟩ (sgdRule 1)
      (fun _ _ _ => []) (fun _ _ _ => []) () =
      Except.ok
        ⟨[[FVal.fin 1]], [[FVal.fin 2]],
          [("num_rounds", 1), ("num_generator_train_examples", 0)], ()⟩ ∧
    (⟨[[FVal.fin 1]], [[FVal.fin 2]],
        [("num_rounds", 1), ("num_generator_train_examples", 0)],
        ()⟩ : ServerState Unit).discriminator_weights =
      (⟨[[FVal.fin 1]], [[FVal.fin 2]],
        [("num_rounds", 0), ("num_generator_train_examples", 0)],
        ()⟩ : ServerState Unit).discriminator_weights :=
  ⟨by simp [server_computation, assignWeights, shapesMatch, applyGradients,
     negW, sgdRule, FVal.neg, FVal.scale, FVal.sub, countersMerge,
     countersAddTo, genLoop] <;> norm_num,
   (c4_sgd_step 1
     ⟨[[FVal.fin 1]], [[FVal.fin 2]],
       [("num_rounds", 0), ("num_generator_train_examples", 0)], ()⟩
     [] ⟨[[FVal.fin 0]], FVal.fin 0, []⟩
     ⟨[[FVal.fin 0]], [true]⟩ ⟨[[FVal.fin 0]], [true]⟩
     (fun _ _ _ => []) (fun _ _ _ => []) ()
     ⟨[[FVal.fin 1]], [[FVal.fin 2]],
       [("num_rounds", 1), ("num_generator_train_examples", 0)], ()⟩
     (by simp [server_computation, assignWeights, shapesMatch,
       applyGradients, negW, sgdRule, FVal.neg, FVal.scale, FVal.sub,
       countersMerge, countersAddTo, genLoop] <;> norm_num)).2.2.2
     (by decide)⟩

/-- C6: provided the input state's weights load cleanly into the two
models, `server_computation` fails with a structural error — returning
no state at all, so no partial update is committed — exactly when
`client_output.discriminator_weights_delta` does not have identical
structure (tensor count and shapes) to the discriminator's weights;
when the structures match, no structural error is raised. -/
theorem c6_structure_check {A : Type} (st : ServerState A)
    (genDs : List Batch) (co : ClientOutput)
    (generator discriminator : Network) (rule : FVal → FVal → FVal)
    (tgf gm : GenMin) (newAgg : A)
    (hg : shapesMatch st.generator_weights generator.weights = true)
    (hd : shapesMatch st.discriminator_weights discriminator.weights =
      true) :
    (shapesMatch co.discriminator_weights_delta st.discriminator_weights =
        false →
      server_computation st genDs co generator discriminator rule tgf gm
        newAgg = Except.error Err.structural) ∧
    (shapesMatch co.discriminator_weights_delta st.discriminator_weights =
        true →
      server_computation st genDs co generator discriminator rule tgf gm
        newAgg ≠ Except.error Err.structural) := by
  constructor
  · intro hmis
    unfold server_computation
    rw [assignWeights_of_match hg, assignWeights_of_match hd]
    by_cases hlen : co.discriminator_weights_delta.length =
      st.discriminator_weights.length
    · have hng : shapesMatch (negW co.discriminator_weights_delta)
          st.discriminator_weights = false := by
        rw [shapesMatch_negW]
        exact hmis
      simp [hlen, applyGradients, hng]
    · simp [hlen]
  · intro hmatch hcontra
    have hng : shapesMatch (negW co.discriminator_weights_delta)
        st.discriminator_weights = true := by
      rw [shapesMatch_negW]
      exact hmatch
    have hlen : co.discriminator_weights_delta.length =
        st.discriminator_weights.length := by
      have := (shapesMatch_iff.mp hmatch).1
      exact this
    unfold server_computation at hcontra
    rw [assignWeights_of_match hg, assignWeights_of_match hd] at hcontra
    simp only [hlen, if_true, applyGradients, hng] at hcontra
    split at hcontra
    · simp at hcontra
    · split at hcontra
      · simp at hcontra
      · split at hcontra
        · simp at hcontra
        · simp at hcontra

/-- Witness for C6 at a concrete input: a delta with two tensors
against a one-tensor discriminator is rejected with a structural error
and no state is returned. -/
theorem c6_witness :
    shapesMatch ([[FVal.fin 1]] : Weights) [[FVal.fin 0]] = true ∧
    shapesMatch ([[FVal.fin 0]] : Weights) [[FVal.fin 0]] = true ∧
    shapesMatch ([[FVal.fin 0], [FVal.fin 0]] : Weights) [[FVal.fin 0]] =
      false ∧
    server_computation (A := Unit)
      ⟨[[FVal.fin 1]], [[FVal.fin 0]],
        [("num_rounds", 0), ("num_generator_train_examples", 0)], ()⟩
      [] ⟨[[FVal.fin 0], [FVal.fin 0]], FVal.fin 0, []⟩
      ⟨[[FVal.fin 0]], [true]⟩ ⟨[[FVal.fin 0]], [true]⟩ (sgdRule 1)
      (fun _ _ _ => []) (fun _ _ _ => []) () =
      Except.error Err.structural :=
  ⟨by decide, by decide, by decide,
   (c6_structure_check
     ⟨[[FVal.fin 1]], [[FVal.fin 0]],
       [("num_rounds", 0), ("num_generator_train_examples", 0)], ()⟩
     [] ⟨[[FVal.fin 0], [FVal.fin 0]], FVal.fin 0, []⟩
     ⟨[[FVal.fin 0]], [true]⟩ ⟨[[FVal.fin 0]], [true]⟩ (sgdRule 1)
     (fun _ _ _ => []) (fun _ _ _ => []) ()
     (by decide) (by decide)).1 (by decide)⟩

/-- C7 (amended): the counters of `client_output` are summed into the
working counters only for keys already present in
`server_state.counters`: for any such key (other than the two
bookkeeping keys incremented afterwards) the returned counters hold the
prior value plus the client value; a key absent from the server
counters is not created — `d[k] += v` raises `KeyError`, so the call
returns no state at all. -/
theorem c7_counter_sum {A : Type} (st : ServerState A)
    (genDs : List Batch) (co : ClientOutput)
    (generator discriminator : Network) (rule : FVal → FVal → FVal)
    (tgf gm : GenMin) (newAgg : A)
    (hnodup : (co.counters.map Prod.fst).Nodup) :
    (∀ (st' : ServerState A) (k : String) (v x : ℤ),
      server_computation st genDs co generator discriminator rule tgf gm
        newAgg = Except.ok st' →
      (k, v) ∈ co.counters → countersGet st.counters k = some x →
      k ≠ "num_rounds" → k ≠ "num_generator_train_examples" →
      countersGet st'.counters k = some (x + v)) ∧
    ((∃ k, k ∈ co.counters.map Prod.fst ∧
        countersGet st.counters k = none) →
      ∀ st' : ServerState A,
        server_computation st genDs co generator discriminator rule tgf gm
          newAgg ≠ Except.ok st') := by
  constructor
  · intro st' k v x hok hmem hx hk1 hk2
    obtain ⟨hs1, hs2, hlen, discW2, d1, d2, d3, happ, hmerge, hadd1, hadd2,
      hst⟩ := server_computation_ok_inv hok
    subst hst
    have h1 : countersGet d1 k = some (x + v) :=
      countersMerge_present hnodup hmem hx hmerge
    have h2 : countersGet d2 k = some (x + v) := by
      rw [countersGet_addTo_ne hadd1 hk2, h1]
    have h3 : countersGet d3 k = some (x + v) := by
      rw [countersGet_addTo_ne hadd2 hk1, h2]
    exact h3
  · rintro ⟨k, hk, hnone⟩ st' hok
    obtain ⟨_, _, _, discW2, d1, d2, d3, happ, hmerge, _, _, _⟩ :=
      server_computation_ok_inv hok
    rw [countersMerge_absent hk hnone] at hmerge
    exact Option.noConfusion hmerge

/-- C7 counterexample: a client counter key (`extra_counter`) absent
from the server counters is not created: the call raises `KeyError`
instead of returning a state carrying the client value. -/
theorem c7_cex :
    server_computation (A := Unit)
      ⟨[[FVal.fin 1]], [[FVal.fin 0]],
        [("num_rounds", 0), ("num_generator_train_examples", 0)], ()⟩
      [] ⟨[[FVal.fin 0]], FVal.fin 0, [("extra_counter", 5)]⟩
      ⟨[[FVal.fin 0]], [true]⟩ ⟨[[FVal.fin 0]], [true]⟩ (sgdRule 1)
      (fun _ _ _ => []) (fun _ _ _ => []) () =
      Except.error Err.keyError ∧
    countersGet [("num_rounds", (0 : ℤ)),
      ("num_generator_train_examples", 0)] "extra_counter" = none := by
  constructor
  · simp [server_computation, assignWeights, shapesMatch, applyGradients,
      negW, sgdRule, FVal.neg, FVal.scale, FVal.sub, countersMerge,
      countersAddTo, genLoop] <;> norm_num
  · decide

/-- Witness for (amended) C7 at a concrete input: client counter
`num_discriminator_train_examples` = 4 is added to the server's prior
value 3, giving 7 in the returned state. -/
theorem c7_witness :
    server_computation (A := Unit)
      ⟨[[FVal.fin 1]], [[FVal.fin 0]],
        [("num_discriminator_train_examples", 3),
         ("num_generator_train_examples", 10), ("num_rounds", 2)], ()⟩
      [] ⟨[[FVal.fin 2]], FVal.fin 3,
        [("num_discriminator_train_examples", 4)]⟩
      ⟨[[FVal.fin 0]], [true]⟩ ⟨[[FVal.fin 0]], [true]⟩ (sgdRule 1)
      (fun _ _ _ => []) (fun _ _ _ => []) () =
      Except.ok
        ⟨[[FVal.fin 1]], [[FVal.fin 2]],
          [("num_discriminator_train_examples", 7),
           ("num_generator_train_examples", 10), ("num_rounds", 3)], ()⟩ ∧
    countersGet (⟨[[FVal.fin 1]], [[FVal.fin 2]],
        [("num_discriminator_train_examples", 7),
         ("num_generator_train_examples", 10), ("num_rounds", 3)],
        ()⟩ : ServerState Unit).counters
      "num_discriminator_train_examples" = some (3 + 4) :=
  ⟨by simp [server_computation, assignWeights, shapesMatch,
     applyGradients, negW, sgdRule, FVal.neg, FVal.scale, FVal.sub,
     countersMerge, countersAddTo, genLoop] <;> norm_num,
   (c7_counter_sum
     ⟨[[FVal.fin 1]], [[FVal.fin 0]],
       [("num_discriminator_train_examples", 3),
        ("num_generator_train_examples", 10), ("num_rounds", 2)], ()⟩
     [] ⟨[[FVal.fin 2]], FVal.fin 3,
       [("num_discriminator_train_examples", 4)]⟩
     ⟨[[FVal.fin 0]], [true]⟩ ⟨[[FVal.fin 0]], [true]⟩ (sgdRule 1)
     (fun _ _ _ => []) (fun _ _ _ => []) ()
     (by decide)).1
     ⟨[[FVal.fin 1]], [[FVal.fin 2]],
       [("num_discriminator_train_examples", 7),
        ("num_generator_train_examples", 10), ("num_rounds", 3)], ()⟩
     "num_discriminator_train_examples" 4 3
     (by simp [server_computation, assignWeights, shapesMatch,
       applyGradients, negW, sgdRule, FVal.neg, FVal.scale, FVal.sub,
       countersMerge, countersAddTo, genLoop] <;> norm_num)
     (by decide) (by decide) (by decide) (by decide)⟩

/-- C3: provided the broadcast weights load cleanly, the client round
always returns a well-formed `ClientOutput` (no error is raised even
when the delta is corrupted): if the raw weights delta contains no
non-finite value, `update_weight` is `float(num_examples)` and the
delta is passed through unchanged; if any element is NaN or infinite,
`update_weight` is 0.0 and `discriminator_weights_delta` is an
all-zero structure of the same shapes. -/
theorem c3_nonfinite_guard (genDs realDs : List Batch) (fs : FromServer)
    (generator discriminator : Network) (tdf dm : DiscMin)
    (hg : shapesMatch fs.generator_weights generator.weights = true)
    (hd : shapesMatch fs.discriminator_weights discriminator.weights =
      true) :
    ∃ (o : ClientOutput) (gfin dfin : Network),
      client_computation genDs realDs fs generator discriminator tdf dm =
        Except.ok (o, gfin, dfin) ∧
      ((subW (clientLoop dm fs.generator_weights
            discriminator.trainableMask (genDs.zip realDs)
            fs.discriminator_weights).1 fs.discriminator_weights).any
          (fun t => t.any fun x => !x.isFinite) = false →
        o.update_weight =
          FVal.fin (((clientLoop dm fs.generator_weights
            discriminator.trainableMask (genDs.zip realDs)
            fs.discriminator_weights).2.1 : ℤ) : ℚ) ∧
        o.discriminator_weights_delta =
          subW (clientLoop dm fs.generator_weights
            discriminator.trainableMask (genDs.zip realDs)
            fs.discriminator_weights).1 fs.discriminator_weights) ∧
      ((subW (clientLoop dm fs.generator_weights
            discriminator.trainableMask (genDs.zip realDs)
            fs.discriminator_weights).1 fs.discriminator_weights).any
          (fun t => t.any fun x => !x.isFinite) = true →
        o.update_weight = FVal.fin 0 ∧
        o.discriminator_weights_delta =
          (subW (clientLoop dm fs.generator_weights
            discriminator.trainableMask (genDs.zip realDs)
            fs.discriminator_weights).1 fs.discriminator_weights).map
            (fun t => t.map fun _ => FVal.fin 0)) := by
  refine ⟨_, _, _, client_computation_total tdf dm hg hd, ?_, ?_⟩
  · intro hfin
    constructor
    · simp [zero_all_if_any_non_finite, hfin]
    · simp [zero_all_if_any_non_finite, hfin]
  · intro hbad
    constructor
    · simp [zero_all_if_any_non_finite, hbad]
    · simp [zero_all_if_any_non_finite, hbad]

/-- Witness for C3 at a concrete input: a training step that writes NaN
into the discriminator produces a NaN delta, which is zeroed, with
`update_weight` 0; the round still returns a well-formed output. -/
theorem c3_witness :
    shapesMatch ([[FVal.fin 1]] : Weights) [[FVal.fin 0]] = true ∧
    (∃ (o : ClientOutput) (gfin dfin : Network),
      client_computation [[[FVal.fin 1]]] [[[FVal.fin 2]]]
          ⟨[[FVal.fin 1]], [[FVal.fin 4]]⟩ ⟨[[FVal.fin 0]], [true]⟩
          ⟨[[FVal.fin 0]], [true]⟩ (fun _ _ _ _ => [[FVal.nan]])
          (fun _ _ _ _ => [[FVal.nan]]) = Except.ok (o, gfin, dfin) ∧
      ((subW (clientLoop (fun _ _ _ _ => [[FVal.nan]]) [[FVal.fin 1]]
            [true] ([[[FVal.fin 1]]].zip [[[FVal.fin 2]]])
            [[FVal.fin 4]]).1 [[FVal.fin 4]]).any
          (fun t => t.any fun x => !x.isFinite) = false →
        o.update_weight =
          FVal.fin (((clientLoop (fun _ _ _ _ => [[FVal.nan]])
            [[FVal.fin 1]] [true] ([[[FVal.fin 1]]].zip [[[FVal.fin 2]]])
            [[FVal.fin 4]]).2.1 : ℤ) : ℚ) ∧
        o.discriminator_weights_delta =
          subW (clientLoop (fun _ _ _ _ => [[FVal.nan]]) [[FVal.fin 1]]
            [true] ([[[FVal.fin 1]]].zip [[[FVal.fin 2]]])
            [[FVal.fin 4]]).1 [[FVal.fin 4]]) ∧
      ((subW (clientLoop (fun _ _ _ _ => [[FVal.nan]]) [[FVal.fin 1]]
            [true] ([[[FVal.fin 1]]].zip [[[FVal.fin 2]]])
            [[FVal.fin 4]]).1 [[FVal.fin 4]]).any
          (fun t => t.any fun x => !x.isFinite) = true →
        o.update_weight = FVal.fin 0 ∧
        o.discriminator_weights_delta =
          (subW (clientLoop (fun _ _ _ _ => [[FVal.nan]]) [[FVal.fin 1]]
            [true] ([[[FVal.fin 1]]].zip [[[FVal.fin 2]]])
            [[FVal.fin 4]]).1 [[FVal.fin 4]]).map
            (fun t => t.map fun _ => FVal.fin 0))) :=
  ⟨by decide,
   c3_nonfinite_guard [[[FVal.fin 1]]] [[[FVal.fin 2]]]
     ⟨[[FVal.fin 1]], [[FVal.fin 4]]⟩ ⟨[[FVal.fin 0]], [true]⟩
     ⟨[[FVal.fin 0]], [true]⟩ (fun _ _ _ _ => [[FVal.nan]])
     (fun _ _ _ _ => [[FVal.nan]]) (by decide) (by decide)⟩

/-- C8: with both datasets empty (zero training steps) and the
broadcast discriminator weights equal to the discriminator's current
weights, the client round returns an all-zero
`discriminator_weights_delta` of the same shapes, `update_weight` 0,
and a `num_discriminator_train_examples` count of 0. -/
theorem c8_empty_round (fs : FromServer) (generator discriminator : Network)
    (tdf dm : DiscMin)
    (hg : shapesMatch fs.generator_weights generator.weights = true)
    (hd : shapesMatch fs.discriminator_weights discriminator.weights =
      true)
    (heq : fs.discriminator_weights = discriminator.weights) :
    client_computation [] [] fs generator discriminator tdf dm =
      Except.ok
        (⟨fs.discriminator_weights.map (fun t => t.map fun _ => FVal.fin 0),
          FVal.fin 0, [("num_discriminator_train_examples", 0)]⟩,
         ⟨fs.generator_weights, generator.trainableMask⟩,
         ⟨fs.discriminator_weights, discriminator.trainableMask⟩) := by
  rw [client_computation_total tdf dm hg hd]
  have hloop : clientLoop dm fs.generator_weights
      discriminator.trainableMask (([] : List Batch).zip [])
      fs.discriminator_weights = (fs.discriminator_weights, 0, []) := rfl
  rw [hloop]
  rw [zero_all_sub_self fs.discriminator_weights]
  have hupd : (if (zero_all_if_any_non_finite
      (subW fs.discriminator_weights fs.discriminator_weights)).2
      then FVal.fin 0 else FVal.fin ((0 : ℤ) : ℚ)) = FVal.fin 0 := by
    split
    · rfl
    · norm_num
  rw [hupd]

/-- Witness for C8 at a concrete input, with a NaN current weight: the
zero-step round still returns an all-zero delta and zero update weight. -/
theorem c8_witness :
    shapesMatch ([[FVal.fin 1]] : Weights) [[FVal.fin 0]] = true ∧
    shapesMatch ([[FVal.nan]] : Weights) [[FVal.nan]] = true ∧
    ([[FVal.nan]] : Weights) = [[FVal.nan]] ∧
    client_computation [] [] ⟨[[FVal.fin 1]], [[FVal.nan]]⟩
        ⟨[[FVal.fin 0]], [true]⟩ ⟨[[FVal.nan]], [true]⟩
        (fun _ _ _ _ => []) (fun _ _ _ _ => []) =
      Except.ok
        (⟨[[FVal.fin 0]], FVal.fin 0,
          [("num_discriminator_train_examples", 0)]⟩,
         ⟨[[FVal.fin 1]], [true]⟩, ⟨[[FVal.nan]], [true]⟩) :=
  ⟨by decide, by decide, rfl,
   c8_empty_round ⟨[[FVal.fin 1]], [[FVal.nan]]⟩ ⟨[[FVal.fin 0]], [true]⟩
     ⟨[[FVal.nan]], [true]⟩ (fun _ _ _ _ => []) (fun _ _ _ _ => [])
     (by decide) (by decide) rfl⟩

/-- C5: at the Python object level, `server_computation` never mutates
the state object it was handed: the input object and its counters dict
are bit-for-bit unchanged in the post-call heap, the state returned
lives at a fresh address, and its counters field references a fresh
dict, not the input's. -/
theorem c5_no_input_aliasing {A : Type} (h : Heap A) (addr : Nat)
    (genDs : List Batch) (co : ClientOutput)
    (generator discriminator : Network) (rule : FVal → FVal → FVal)
    (tgf gm : GenMin) (newAgg : A) (obj : ServerStateObj A) (h2 : Heap A)
    (outAddr : Nat)
    (hobj : h.objs.get? addr = some obj)
    (hok : server_computation_heap h addr genDs co generator discriminator
      rule tgf gm newAgg = Except.ok (h2, outAddr)) :
    h2.objs.get? addr = some obj ∧
    h2.dicts.get? obj.countersAddr = h.dicts.get? obj.countersAddr ∧
    outAddr ≠ addr ∧
    ∀ outObj, h2.objs.get? outAddr = some outObj →
      outObj.countersAddr = h.dicts.length ∧
      outObj.countersAddr ≠ obj.countersAddr := by
  unfold server_computation_heap at hok
  split at hok
  · simp at hok
  next obj2 heq1 =>
    rw [hobj] at heq1
    injection heq1 with heq1
    subst heq1
    split at hok
    · simp at hok
    next d heq2 =>
      split at hok
      · simp at hok
      next st2 heq3 =>
        injection hok with hok
        injection hok with hh ha
        subst hh
        subst ha
        have haddr : addr < h.objs.length := by
          rcases Nat.lt_or_ge addr h.objs.length with hlt | hge
          · exact hlt
          · rw [List.get?_eq_none.mpr hge] at hobj
            cases hobj
        have hdict : obj.countersAddr < h.dicts.length := by
          rcases Nat.lt_or_ge obj.countersAddr h.dicts.length with hlt | hge
          · exact hlt
          · rw [List.get?_eq_none.mpr hge] at heq2
            cases heq2
        refine ⟨?_, ?_, ?_, ?_⟩
        · simp only [set_append_length]
          rw [List.get?_append haddr]
          exact hobj
        · simp only [set_append_length]
          exact List.get?_append hdict
        · omega
        · intro outObj hout
          simp only [set_append_length, List.get?_concat_length] at hout
          injection hout with hout
          subst hout
          refine ⟨rfl, ?_⟩
          show h.dicts.length ≠ obj.countersAddr
          omega

/-- Witness for C5 at a concrete input: after a round run at the object
level, the input state object at address 0 and its counters dict are
unchanged, and the returned state lives at the fresh address 1. -/
theorem c5_witness :
    (⟨[[("num_rounds", 0), ("num_generator_train_examples", 0)]],
       [⟨[[FVal.fin 1]], [[FVal.fin 0]], 0, ()⟩]⟩ :
         Heap Unit).objs.get? 0 =
      some ⟨[[FVal.fin 1]], [[FVal.fin 0]], 0, ()⟩ ∧
    server_computation_heap (A := Unit)
      ⟨[[("num_rounds", 0), ("num_generator_train_examples", 0)]],
       [⟨[[FVal.fin 1]], [[FVal.fin 0]], 0, ()⟩]⟩ 0
      [] ⟨[[FVal.fin 2]], FVal.fin 1, []⟩
      ⟨[[FVal.fin 0]], [true]⟩ ⟨[[FVal.fin 0]], [true]⟩ (sgdRule 1)
      (fun _ _ _ => []) (fun _ _ _ => []) () =
      Except.ok
        (⟨[[("num_rounds", 0), ("num_generator_train_examples", 0)],
           [("num_rounds", 1), ("num_generator_train_examples", 0)]],
          [⟨[[FVal.fin 1]], [[FVal.fin 0]], 0, ()⟩,
           ⟨[[FVal.fin 1]], [[FVal.fin 2]], 1, ()⟩]⟩, 1) ∧
    (⟨[[("num_rounds", 0), ("num_generator_train_examples", 0)],
        [("num_rounds", 1), ("num_generator_train_examples", 0)]],
       [⟨[[FVal.fin 1]], [[FVal.fin 0]], 0, ()⟩,
        ⟨[[FVal.fin 1]], [[FVal.fin 2]], 1, ()⟩]⟩ :
         Heap Unit).objs.get? 0 =
      some ⟨[[FVal.fin 1]], [[FVal.fin 0]], 0, ()⟩ :=
  ⟨rfl,
   by simp [server_computation_heap, server_computation, assignWeights,
     shapesMatch, applyGradients, negW, sgdRule, FVal.neg, FVal.scale,
     FVal.sub, countersMerge, countersAddTo, genLoop, List.set] <;>
     norm_num,
   (c5_no_input_aliasing
     ⟨[[("num_rounds", 0), ("num_generator_train_examples", 0)]],
      [⟨[[FVal.fin 1]], [[FVal.fin 0]], 0, ()⟩]⟩ 0
     [] ⟨[[FVal.fin 2]], FVal.fin 1, []⟩
     ⟨[[FVal.fin 0]], [true]⟩ ⟨[[FVal.fin 0]], [true]⟩ (sgdRule 1)
     (fun _ _ _ => []) (fun _ _ _ => []) ()
     ⟨[[FVal.fin 1]], [[FVal.fin 0]], 0, ()⟩
     ⟨[[("num_rounds", 0), ("num_generator_train_examples", 0)],
       [("num_rounds", 1), ("num_generator_train_examples", 0)]],
      [⟨[[FVal.fin 1]], [[FVal.fin 0]], 0, ()⟩,
       ⟨[[FVal.fin 1]], [[FVal.fin 2]], 1, ()⟩]⟩ 1
     rfl
     (by simp [server_computation_heap, server_computation, assignWeights,
       shapesMatch, applyGradients, negW, sgdRule, FVal.neg, FVal.scale,
       FVal.sub, countersMerge, countersAddTo, genLoop, List.set] <;>
       norm_num)).1⟩

/-- Witness for C2 at a concrete input: datasets of lengths 2 and 3
with batch sizes (3, 2) and (2, 5, 4) give exactly min(2, 3) = 2 steps
and 2 + 2 = 4 accumulated examples. -/
theorem c2_witness :
    client_computation
        [[[], [], []], [[], []]]
        [[[], []], [[], [], [], [], []], [[], [], [], []]]
        ⟨[], []⟩ ⟨[], []⟩ ⟨[], []⟩ (fun _ _ _ _ => [])
        (fun _ _ _ _ => []) =
      Except.ok
        (⟨[], FVal.fin 4, [("num_discriminator_train_examples", 4)]⟩,
         ⟨[], []⟩, ⟨[], []⟩) ∧
    (⟨[], FVal.fin 4,
       [("num_discriminator_train_examples", 4)]⟩ : ClientOutput).counters =
      [("num_discriminator_train_examples",
        (clientLoop (fun _ _ _ _ => []) [] []
          (([[[], [], []], [[], []]] : List Batch).zip
            [[[], []], [[], [], [], [], []], [[], [], [], []]]) []).2.1)] ∧
    (clientLoop (fun _ _ _ _ => []) [] []
      (([[[], [], []], [[], []]] : List Batch).zip
        [[[], []], [[], [], [], [], []], [[], [], [], []]]) []).2.1 = 4 ∧
    ((clientLoop (fun _ _ _ _ => []) [] []
      (([[[], [], []], [[], []]] : List Batch).zip
        [[[], []], [[], [], [], [], []], [[], [], [], []]]) []).2.2).length =
      min ([[[], [], []], [[], []]] : List Batch).length
        ([[[], []], [[], [], [], [], []], [[], [], [], []]] :
          List Batch).length :=
  ⟨by simp [client_computation, assignWeights, shapesMatch, clientLoop,
     setTrainable, subW, zero_all_if_any_non_finite, FVal.sub,
     FVal.isFinite] <;> norm_num,
   (c2_min_steps (fun _ _ _ _ => []) ⟨[], []⟩ ⟨[], []⟩ ⟨[], []⟩
     (fun _ _ _ _ => []) [[[], [], []], [[], []]]
     [[[], []], [[], [], [], [], []], [[], [], [], []]]).2.2.2
     ⟨[], FVal.fin 4, [("num_discriminator_train_examples", 4)]⟩
     ⟨[], []⟩ ⟨[], []⟩
     (by simp [client_computation, assignWeights, shapesMatch, clientLoop,
       setTrainable, subW, zero_all_if_any_non_finite, FVal.sub,
       FVal.isFinite] <;> norm_num),
   by simp [clientLoop] <;> norm_num,
   (c2_min_steps (fun _ _ _ _ => []) ⟨[], []⟩ ⟨[], []⟩ ⟨[], []⟩
     (fun _ _ _ _ => []) [[[], [], []], [[], []]]
     [[[], []], [[], [], [], [], []], [[], [], [], []]]).1⟩
